import Mathlib

/-!
Verification development for the pms-7003 sensor driver.

The definitions below are a shallow embedding of `src/lib.rs` and
`src/read_fsm.rs`: bytes are natural numbers below 256, `u16` values are
natural numbers below 65536 with wrapping written as an explicit `% 65536`,
and the mutable read state machine is carried as an explicit state record.
-/

namespace Pms7003

/-- First magic number of every frame (`src/lib.rs`, `MN1`). -/
def MN1 : ℕ := 0x42

/-- Second magic number of every frame (`src/lib.rs`, `MN2`).  Note the source
sets this to `0x42`, not `0x4D`. -/
def MN2 : ℕ := 0x42

/-- Frame sizes and checksum width (`src/lib.rs`, top-level constants). -/
def CMD_FRAME_SIZE : ℕ := 7

/-- Size of a telemetry output frame in bytes (`src/lib.rs`). -/
def OUTPUT_FRAME_SIZE : ℕ := 32

/-- Size of an acknowledgement response frame in bytes (`src/lib.rs`). -/
def RESPONSE_FRAME_SIZE : ℕ := 8

/-- Width of the trailing checksum in bytes (`src/lib.rs`). -/
def CHECKSUM_SIZE : ℕ := 2

/-- Driver error type (`src/lib.rs`, `enum Error`). -/
inductive Error where
  | sendFailed
  | readFailed
  | checksumError
  | incorrectResponse
  | noResponse
deriving DecidableEq

/-- One outcome of a serial byte read, `Result<u8, nb::Error<E>>`: a byte, a
"nothing ready yet" signal (`nb::Error::WouldBlock`), or a hard fault
(`nb::Error::Other`). -/
inductive ReadResult where
  | ok (byte : ℕ)
  | wouldBlock
  | fault
deriving DecidableEq

/-- Whether a read outcome delivered a byte. -/
def ReadResult.isOk : ReadResult → Bool
  | ReadResult.ok _ => true
  | _ => false

/-- Status reported by `ReadStateMachine::update` (`src/read_fsm.rs`). -/
inductive ReadStatus where
  | inProgress
  | finished
  | failed
deriving DecidableEq

/-- Internal phase of the read state machine (`src/read_fsm.rs`, `enum State`). -/
inductive State where
  | waitingForFirstMagicNumber
  | waitingForSecondMagicNumber
  | reading
  | finished
  | failed
deriving DecidableEq

/-- The read state machine (`src/read_fsm.rs`).  The Rust struct borrows a
mutable byte buffer; here the buffer is carried inside the state.  The ghost
field `oob` records whether some buffer write `self.buffer[i] = b` was out of
bounds: in Rust such a write panics, so a run of the real machine is modelled
faithfully exactly while `oob` stays `false`. -/
structure ReadStateMachine where
  buffer : List ℕ
  index : ℕ
  state : State
  retries : ℕ
  oob : Bool
deriving DecidableEq

/-- One buffer write `self.buffer[i] = b`: in bounds it updates the buffer, out
of bounds (a panic in Rust) it sets the ghost flag `oob`. -/
def ReadStateMachine.writeByte (m : ReadStateMachine) (i b : ℕ) : ReadStateMachine :=
  if i < m.buffer.length then { m with buffer := m.buffer.set i b } else { m with oob := true }

/-- `ReadStateMachine::new` (`src/read_fsm.rs`): fresh machine over the given
buffer, retry budget 100. -/
def ReadStateMachine.new (buffer : List ℕ) : ReadStateMachine :=
  { buffer := buffer
    index := 0
    state := State.waitingForFirstMagicNumber
    retries := 100
    oob := false }

/-- `create_test_fsm` (`src/read_fsm.rs`, test helper): like
`ReadStateMachine.new` but with an arbitrary retry budget. -/
def create_test_fsm (buffer : List ℕ) (retries : ℕ) : ReadStateMachine :=
  { buffer := buffer
    index := 0
    state := State.waitingForFirstMagicNumber
    retries := retries
    oob := false }

/-- `ReadStateMachine::retry` (`src/read_fsm.rs`): when the budget is already
zero enter `Failed`, otherwise decrement the budget. -/
def ReadStateMachine.retry (m : ReadStateMachine) : ReadStateMachine :=
  if m.retries = 0 then { m with state := State.failed } else { m with retries := m.retries - 1 }

/-- `ReadStateMachine::magic_number_read` (`src/read_fsm.rs`): both magic bytes
seen; store them at positions 0 and 1, set the cursor to 2 and start reading. -/
def ReadStateMachine.magic_number_read (m : ReadStateMachine) : ReadStateMachine :=
  let m1 := { m with index := 2 }
  let m2 := m1.writeByte 0 MN1
  let m3 := m2.writeByte 1 MN2
  { m3 with state := State.reading }

/-- `ReadStateMachine::byte_read` (`src/read_fsm.rs`): store the byte at the
cursor, advance it, and finish when the buffer is full. -/
def ReadStateMachine.byte_read (m : ReadStateMachine) (b : ℕ) : ReadStateMachine :=
  let m1 := m.writeByte m.index b
  let m2 := { m1 with index := m1.index + 1 }
  if m2.index = m2.buffer.length then { m2 with state := State.finished } else m2

/-- The state transition performed by `ReadStateMachine::update`
(`src/read_fsm.rs`, first `match`). -/
def ReadStateMachine.update (m : ReadStateMachine) (r : ReadResult) : ReadStateMachine :=
  match m.state with
  | State.waitingForFirstMagicNumber =>
    match r with
    | ReadResult.ok b =>
      if b = MN1 then { m with state := State.waitingForSecondMagicNumber } else m.retry
    | _ => m.retry
  | State.waitingForSecondMagicNumber =>
    match r with
    | ReadResult.ok b =>
      if b = MN2 then m.magic_number_read
      else { m with state := State.waitingForFirstMagicNumber }
    | _ => m.retry
  | State.reading =>
    match r with
    | ReadResult.ok b => m.byte_read b
    | _ => m.retry
  | _ => m

/-- The `ReadStatus` that `update` returns, computed from the post-transition
state (`src/read_fsm.rs`, second `match`). -/
def statusOf (m : ReadStateMachine) : ReadStatus :=
  match m.state with
  | State.finished => ReadStatus.finished
  | State.failed => ReadStatus.failed
  | _ => ReadStatus.inProgress

/-- Feed a sequence of read outcomes into the machine (the tests'
`read_sequence` helper, and the driver loop of `read_from_device`). -/
def run (m : ReadStateMachine) (inputs : List ReadResult) : ReadStateMachine :=
  inputs.foldl ReadStateMachine.update m

/-- Instrumentation for the retry budget: `true` exactly when `update` in the
current state, on the given outcome, calls `retry` (`src/read_fsm.rs`): any
outcome other than a successfully read first magic byte while waiting for the
first magic byte, and a not-ready or fault outcome while waiting for the
second magic byte or while reading. -/
def isRetryEvent (m : ReadStateMachine) (r : ReadResult) : Bool :=
  match m.state, r with
  | State.waitingForFirstMagicNumber, ReadResult.ok b => if b = MN1 then false else true
  | State.waitingForFirstMagicNumber, _ => true
  | State.waitingForSecondMagicNumber, ReadResult.ok _ => false
  | State.waitingForSecondMagicNumber, _ => true
  | State.reading, ReadResult.ok _ => false
  | State.reading, _ => true
  | _, _ => false

/-- Number of retry-consuming events along a run of the machine. -/
def countRetryEvents (m : ReadStateMachine) : List ReadResult → ℕ
  | [] => 0
  | r :: rs => (if isRetryEvent m r then 1 else 0) + countRetryEvents (m.update r) rs

/-- Big-endian byte pair of a 16-bit value (`gwrite_with::<u16>(_, _, BE)`). -/
def be16 (v : ℕ) : List ℕ := [v / 256 % 256, v % 256]

/-- `create_command` (`src/lib.rs`): the 7-byte command frame.  `cmd` is a
`u8` and `data` a `u16`.  `front` is exactly the first five bytes of the
frame; the checksum is their `u16` sum (wrapping, hence `% 65536`), written
big-endian as the last two bytes. -/
def create_command (cmd data : ℕ) : List ℕ :=
  let front := [MN1, MN2, cmd] ++ be16 data
  let checksum := front.sum % 65536
  front ++ be16 checksum

/-- Big-endian 16-bit read at offset `o` (`gread_with::<u16>(_, BE)`). -/
def rd16 (b : List ℕ) (o : ℕ) : ℕ := b.getD o 0 * 256 + b.getD (o + 1) 0

/-- Telemetry record decoded from a 32-byte output frame (`src/lib.rs`,
`struct OutputFrame`). -/
structure OutputFrame where
  start1 : ℕ
  start2 : ℕ
  frame_length : ℕ
  pm1_0 : ℕ
  pm2_5 : ℕ
  pm10 : ℕ
  pm1_0_atm : ℕ
  pm2_5_atm : ℕ
  pm10_atm : ℕ
  beyond_0_3 : ℕ
  beyond_0_5 : ℕ
  beyond_1_0 : ℕ
  beyond_2_5 : ℕ
  beyond_5_0 : ℕ
  beyond_10_0 : ℕ
  reserved : ℕ
  check : ℕ
deriving DecidableEq

/-- `OutputFrame::from_buffer` (`src/lib.rs`): decode the 17 fields and compare
the plain (non-wrapping, `usize`) sum of the first 30 bytes against the decoded
16-bit checksum field. -/
def OutputFrame.from_buffer (b : List ℕ) : Except Error OutputFrame :=
  let sum := (b.take (OUTPUT_FRAME_SIZE - CHECKSUM_SIZE)).sum
  let frame : OutputFrame :=
    { start1 := b.getD 0 0
      start2 := b.getD 1 0
      frame_length := rd16 b 2
      pm1_0 := rd16 b 4
      pm2_5 := rd16 b 6
      pm10 := rd16 b 8
      pm1_0_atm := rd16 b 10
      pm2_5_atm := rd16 b 12
      pm10_atm := rd16 b 14
      beyond_0_3 := rd16 b 16
      beyond_0_5 := rd16 b 18
      beyond_1_0 := rd16 b 20
      beyond_2_5 := rd16 b 22
      beyond_5_0 := rd16 b 24
      beyond_10_0 := rd16 b 26
      reserved := rd16 b 28
      check := rd16 b 30 }
  if sum ≠ frame.check then Except.error Error.checksumError else Except.ok frame

/-- Expected acknowledgement of the passive-mode command (`src/lib.rs`). -/
def PASSIVE_MODE_RESPONSE : List ℕ := [MN1, MN1, 0x00, 0x04, 0xE1, 0x00, 0x01, 0x74]

/-- Expected acknowledgement of the active-mode command (`src/lib.rs`). -/
def ACTIVE_MODE_RESPONSE : List ℕ := [MN1, MN2, 0x00, 0x04, 0xE1, 0x01, 0x01, 0x75]

/-- Expected acknowledgement of the sleep command (`src/lib.rs`). -/
def SLEEP_RESPONSE : List ℕ := [MN1, MN2, 0x00, 0x04, 0xE4, 0x00, 0x01, 0x77]

/-- `read_from_device` (`src/lib.rs`) driven by a finite prefix of serial read
outcomes: run the state machine over a zeroed buffer of the given size.  The
Rust loop returns at the first terminal status; since `update` is a no-op on
terminal states, running over the whole prefix yields the same result.
`none` means the loop is still waiting for further outcomes. -/
def read_result (inputs : List ReadResult) (size : ℕ) : Option (Except Error (List ℕ)) :=
  let final := run (ReadStateMachine.new (List.replicate size 0)) inputs
  match final.state with
  | State.failed => some (Except.error Error.readFailed)
  | State.finished => some (Except.ok final.buffer)
  | _ => none

/-- `receive_response` (`src/lib.rs`): read an 8-byte acknowledgement and
compare it against the expected literal. -/
def receive_response (inputs : List ReadResult) (expected : List ℕ) :
    Option (Except Error Unit) :=
  match read_result inputs RESPONSE_FRAME_SIZE with
  | none => none
  | some (Except.error e) => some (Except.error e)
  | some (Except.ok buf) =>
    if buf ≠ expected then some (Except.error Error.incorrectResponse)
    else some (Except.ok ())

/-- The response phase of `Pms7003Sensor::active` (`src/lib.rs`): after the
mode-change command has been written out, the acknowledgement is read and
compared against `ACTIVE_MODE_RESPONSE`.  The command transmission itself only
writes bytes and is orthogonal to the acknowledgement comparison. -/
def active (inputs : List ReadResult) : Option (Except Error Unit) :=
  receive_response inputs ACTIVE_MODE_RESPONSE

/-- The telemetry frame written by the integration test
(`tests/integration.rs`, `status`). -/
def status_frame : List ℕ :=
  [0x42, 0x4d, 0x0, 0x1c, 0x0, 0x5, 0x0, 0x7, 0x0, 0x7, 0x0, 0x5, 0x0, 0x7, 0x0, 0x7,
   0x0, 0x0, 0x0, 0x0, 0x0, 0x0, 0x0, 0x0, 0x0, 0x0, 0x0, 0x0, 0x97, 0x0, 0x1, 0x68]

/-- Invariant behind Claim C4: once the machine is reading (or done), the
magic bytes sit at buffer positions 0 and 1 (whenever the buffer can hold
them), and the cursor never returns below 2. -/
def hdrInv (m : ReadStateMachine) : Prop :=
  (m.state = State.reading → 2 ≤ m.index ∧ (2 ≤ m.buffer.length →
      m.buffer.getD 0 0 = MN1 ∧ m.buffer.getD 1 0 = MN2)) ∧
  (m.state = State.finished → m.buffer.getD 0 0 = MN1 ∧ m.buffer.getD 1 0 = MN2)

/-- Invariant behind Claim C9: over a buffer of length `n`, no out-of-bounds
write has happened and the cursor stays below `n` while reading. -/
def boundsInv (n : ℕ) (m : ReadStateMachine) : Prop :=
  m.buffer.length = n ∧ m.oob = false ∧ (m.state = State.reading → m.index < n)

/-- Decidable equality for `Except`, used to evaluate the driver model on
concrete inputs. -/
instance {ε α : Type} [DecidableEq ε] [DecidableEq α] : DecidableEq (Except ε α) := fun x y =>
  match x, y with
  | Except.ok a, Except.ok b =>
    if h : a = b then Decidable.isTrue (congrArg Except.ok h)
    else Decidable.isFalse fun hc => h (Except.ok.inj hc)
  | Except.error e, Except.error f =>
    if h : e = f then Decidable.isTrue (congrArg Except.error h)
    else Decidable.isFalse fun hc => h (Except.error.inj hc)
  | Except.ok _, Except.error _ => Decidable.isFalse fun hc => Except.noConfusion hc
  | Except.error _, Except.ok _ => Decidable.isFalse fun hc => Except.noConfusion hc

theorem run_nil (m : ReadStateMachine) : run m [] = m := rfl

theorem run_cons (m : ReadStateMachine) (r : ReadResult) (rs : List ReadResult) :
    run m (r :: rs) = run (m.update r) rs := rfl

theorem countRetryEvents_nil (m : ReadStateMachine) : countRetryEvents m [] = 0 := rfl

theorem countRetryEvents_cons (m : ReadStateMachine) (r : ReadResult) (rs : List ReadResult) :
    countRetryEvents m (r :: rs) =
      (if isRetryEvent m r then 1 else 0) + countRetryEvents (m.update r) rs := rfl

theorem update_terminal (m : ReadStateMachine) (r : ReadResult)
    (h : m.state = State.finished ∨ m.state = State.failed) : m.update r = m := by
  obtain ⟨buf, idx, st, ret, ob⟩ := m
  cases st <;> simp_all [ReadStateMachine.update]

theorem run_terminal (inputs : List ReadResult) (m : ReadStateMachine)
    (h : m.state = State.finished ∨ m.state = State.failed) : run m inputs = m := by
  induction inputs with
  | nil => rfl
  | cons r rs ih => rw [run_cons, update_terminal m r h]; exact ih

theorem isRetryEvent_terminal (m : ReadStateMachine) (r : ReadResult)
    (h : m.state = State.finished ∨ m.state = State.failed) : isRetryEvent m r = false := by
  obtain ⟨buf, idx, st, ret, ob⟩ := m
  cases st <;> cases r <;> simp_all [isRetryEvent]

theorem countRetryEvents_terminal (inputs : List ReadResult) (m : ReadStateMachine)
    (h : m.state = State.finished ∨ m.state = State.failed) :
    countRetryEvents m inputs = 0 := by
  induction inputs with
  | nil => rfl
  | cons r rs ih =>
    rw [countRetryEvents_cons, isRetryEvent_terminal m r h, update_terminal m r h]
    simpa using ih

theorem statusOf_eq_finished (m : ReadStateMachine) :
    statusOf m = ReadStatus.finished ↔ m.state = State.finished := by
  obtain ⟨buf, idx, st, ret, ob⟩ := m
  cases st <;> simp [statusOf]

theorem update_eq_retry (m : ReadStateMachine) (r : ReadResult)
    (he : isRetryEvent m r = true) : m.update r = m.retry := by
  obtain ⟨buf, idx, st, ret, ob⟩ := m
  cases st <;> cases r <;>
    simp_all [isRetryEvent, ReadStateMachine.update]

theorem update_not_retry (m : ReadStateMachine) (r : ReadResult)
    (he : isRetryEvent m r = false) (hm : m.state ≠ State.failed) :
    (m.update r).retries = m.retries ∧ (m.update r).state ≠ State.failed := by
  obtain ⟨buf, idx, st, ret, ob⟩ := m
  cases st <;> cases r <;>
    simp_all [isRetryEvent, ReadStateMachine.update, ReadStateMachine.magic_number_read,
      ReadStateMachine.byte_read, ReadStateMachine.writeByte] <;>
    split_ifs <;> simp_all

theorem run_failed_iff (inputs : List ReadResult) :
    ∀ m : ReadStateMachine, m.state ≠ State.failed →
      ((run m inputs).state = State.failed ↔ m.retries < countRetryEvents m inputs) := by
  induction inputs with
  | nil =>
    intro m hm
    simpa [run_nil, countRetryEvents_nil] using hm
  | cons r rs ih =>
    intro m hm
    rw [run_cons, countRetryEvents_cons]
    by_cases he : isRetryEvent m r = true
    · rw [update_eq_retry m r he]
      simp only [he, if_true]
      rcases Nat.eq_zero_or_pos m.retries with h0 | hpos
      · have hretry : m.retry = { m with state := State.failed } := by
          simp [ReadStateMachine.retry, h0]
        rw [hretry]
        have hterm : ({ m with state := State.failed } : ReadStateMachine).state = State.finished ∨
            ({ m with state := State.failed } : ReadStateMachine).state = State.failed := Or.inr rfl
        rw [run_terminal rs _ hterm, countRetryEvents_terminal rs _ hterm]
        simp [h0]
      · have h0 : m.retries ≠ 0 := by omega
        have hretry : m.retry = { m with retries := m.retries - 1 } := by
          simp [ReadStateMachine.retry, h0]
        rw [hretry]
        have hm2 : ({ m with retries := m.retries - 1 } : ReadStateMachine).state ≠ State.failed :=
          hm
        rw [ih _ hm2]
        show m.retries - 1 < _ ↔ m.retries < 1 + _
        omega
    · have he2 : isRetryEvent m r = false := by simpa using he
      obtain ⟨hr, hs⟩ := update_not_retry m r he2 hm
      rw [ih _ hs, hr]
      simp [he2]

/-- Claim C2: for every opcode byte and every 16-bit data value, the 7-byte
frame built by `create_command` carries in its last two bytes, read
big-endian, exactly the arithmetic sum mod 65536 of its first five bytes; the
function is pure and total. -/
theorem create_command_checksum (cmd data : ℕ) (_hc : cmd < 256) (_hd : data < 65536) :
    (create_command cmd data).length = 7 ∧
    (create_command cmd data).getD 5 0 * 256 + (create_command cmd data).getD 6 0 =
      ((create_command cmd data).take 5).sum % 65536 := by
  refine ⟨by simp [create_command, be16], ?_⟩
  simp [create_command, be16, MN1, MN2]
  omega

/-- Witness for C2: the checksum property evaluated on the active-mode command
`create_command 0xe1 1`. -/
theorem create_command_checksum_witness :
    (create_command 0xe1 1).length = 7 ∧
    (create_command 0xe1 1).getD 5 0 * 256 + (create_command 0xe1 1).getD 6 0 =
      ((create_command 0xe1 1).take 5).sum % 65536 :=
  create_command_checksum 0xe1 1 (by decide) (by decide)

/-- Counterexample to Claim C3 as stated: with retry budget 2 the machine
reaches `Failed` on an input stream in which every read outcome successfully
delivered a byte — there are zero not-ready signals and zero hard faults, so
the claimed count of interruptions (0) does not exceed the budget, yet the
machine fails: noise bytes while awaiting the first magic byte also consume
the budget. -/
theorem failed_with_no_read_interruptions :
    (run (create_test_fsm [0, 0, 0, 0] 2)
        [ReadResult.ok 0, ReadResult.ok 0, ReadResult.ok 0]).state = State.failed ∧
    ([ReadResult.ok 0, ReadResult.ok 0, ReadResult.ok 0].all ReadResult.isOk) = true := by
  decide

/-- Claim C3 (amended): for every buffer, every retry budget `n` and every
input sequence, the reader ends in `Failed` exactly when the cumulative number
of retry-consuming events — not-ready signals, hard faults, and successfully
read bytes other than the first magic byte while waiting for the first magic
byte — exceeds `n`, and never earlier; the budget is shared across all states
of the run and is never reset. -/
theorem failed_iff_budget_exceeded (buffer : List ℕ) (n : ℕ) (inputs : List ReadResult) :
    (run (create_test_fsm buffer n) inputs).state = State.failed ↔
      n < countRetryEvents (create_test_fsm buffer n) inputs :=
  run_failed_iff inputs (create_test_fsm buffer n) (by simp [create_test_fsm])

/-- Claim C5 (code behaviour at the spec's scenario): feeding
`[0x00, 0x00, 0x42, 0x4D, 0x11, 0x33]` into a 4-byte-target reader with
budget 2 ends in `Failed`, not `Finished`, and the buffer does not hold
`[0x42, 0x4D, 0x11, 0x33]` — the source sets the second magic number to
`0x42`, so the `0x4D` byte resets the header search and the remaining bytes
exhaust the budget. -/
theorem header_0x4D_scenario_fails :
    statusOf (run (create_test_fsm [0, 0, 0, 0] 2)
        [ReadResult.ok 0x00, ReadResult.ok 0x00, ReadResult.ok 0x42, ReadResult.ok 0x4D,
          ReadResult.ok 0x11, ReadResult.ok 0x33]) = ReadStatus.failed ∧
    (run (create_test_fsm [0, 0, 0, 0] 2)
        [ReadResult.ok 0x00, ReadResult.ok 0x00, ReadResult.ok 0x42, ReadResult.ok 0x4D,
          ReadResult.ok 0x11, ReadResult.ok 0x33]).buffer ≠ [0x42, 0x4D, 0x11, 0x33] := by
  decide

/-- Claim C6 (code behaviour): the command frame built by `create_command`
has `0x42` as its second byte, not `0x4D` as the spec's wire format states —
the source sets `MN2 = 0x42`. -/
theorem command_second_byte_not_0x4D :
    (create_command 0xe1 0).getD 1 0 = 0x42 ∧ (create_command 0xe1 0).getD 1 0 ≠ 0x4D := by
  decide

/-- Claim C8: once the reader is in a terminal state (`Finished` or `Failed`),
`update` with any read outcome leaves the whole machine — state, buffer,
cursor index and retry budget — unchanged and reports the same terminal
status. -/
theorem terminal_update_noop (m : ReadStateMachine) (r : ReadResult)
    (h : m.state = State.finished ∨ m.state = State.failed) :
    m.update r = m ∧ statusOf (m.update r) = statusOf m := by
  have hu := update_terminal m r h
  exact ⟨hu, by rw [hu]⟩

/-- Witness for C8: a finished machine is untouched by a further byte. -/
theorem terminal_update_noop_witness :
    ReadStateMachine.update ⟨[1, 2], 1, State.finished, 3, false⟩ (ReadResult.ok 7) =
        ⟨[1, 2], 1, State.finished, 3, false⟩ ∧
    statusOf (ReadStateMachine.update ⟨[1, 2], 1, State.finished, 3, false⟩ (ReadResult.ok 7)) =
        statusOf ⟨[1, 2], 1, State.finished, 3, false⟩ :=
  terminal_update_noop ⟨[1, 2], 1, State.finished, 3, false⟩ (ReadResult.ok 7) (Or.inl rfl)

/-- Claim C10: while the reader is still awaiting the header, `update` never
modifies the buffer or the cursor index: in `WaitingForFirstMagicNumber` this
holds for every outcome, and in `WaitingForSecondMagicNumber` for every
outcome other than the successful read of the second magic byte (which
completes the header). -/
theorem awaiting_header_no_buffer_change (m : ReadStateMachine) (r : ReadResult)
    (h : m.state = State.waitingForFirstMagicNumber ∨
      (m.state = State.waitingForSecondMagicNumber ∧ r ≠ ReadResult.ok MN2)) :
    (m.update r).buffer = m.buffer ∧ (m.update r).index = m.index := by
  obtain ⟨buf, idx, st, ret, ob⟩ := m
  cases st <;> cases r <;>
    rcases h with h | ⟨h, hr⟩ <;>
    simp_all [ReadStateMachine.update, ReadStateMachine.retry] <;>
    split_ifs <;> simp_all

/-- Witness for C10: a noise byte while awaiting the first magic byte leaves
buffer and cursor alone. -/
theorem awaiting_header_no_buffer_change_witness :
    (ReadStateMachine.update ⟨[9, 9], 0, State.waitingForFirstMagicNumber, 4, false⟩
        (ReadResult.ok 0x13)).buffer = [9, 9] ∧
    (ReadStateMachine.update ⟨[9, 9], 0, State.waitingForFirstMagicNumber, 4, false⟩
        (ReadResult.ok 0x13)).index = 0 :=
  awaiting_header_no_buffer_change ⟨[9, 9], 0, State.waitingForFirstMagicNumber, 4, false⟩
    (ReadResult.ok 0x13) (Or.inl rfl)

theorem getD_set_self (l : List ℕ) (i a d : ℕ) (h : i < l.length) :
    (l.set i a).getD i d = a := by
  induction l generalizing i with
  | nil => simp at h
  | cons x xs ih =>
    cases i with
    | zero => simp
    | succ n => simpa using ih n (by simpa using h)

theorem getD_set_ne (l : List ℕ) (i j a d : ℕ) (h : i ≠ j) :
    (l.set i a).getD j d = l.getD j d := by
  induction l generalizing i j with
  | nil => simp
  | cons x xs ih =>
    cases i with
    | zero =>
      cases j with
      | zero => exact absurd rfl h
      | succ k => simp
    | succ n =>
      cases j with
      | zero => simp
      | succ k => simpa using ih n k (by omega)

theorem byte_read_char (buf : List ℕ) (idx ret : ℕ) (ob : Bool) (b : ℕ) :
    ReadStateMachine.byte_read ⟨buf, idx, State.reading, ret, ob⟩ b =
      if idx < buf.length then
        (if idx + 1 = buf.length then ⟨buf.set idx b, idx + 1, State.finished, ret, ob⟩
         else ⟨buf.set idx b, idx + 1, State.reading, ret, ob⟩)
      else ⟨buf, idx + 1, State.reading, ret, true⟩ := by
  by_cases h : idx < buf.length
  · by_cases h2 : idx + 1 = buf.length <;>
      simp [ReadStateMachine.byte_read, ReadStateMachine.writeByte, h, h2]
  · have h2 : ¬ (idx + 1 = buf.length) := by omega
    simp [ReadStateMachine.byte_read, ReadStateMachine.writeByte, h, h2]

theorem magic_char (buf : List ℕ) (idx ret : ℕ) (st : State) (ob : Bool)
    (h2 : 2 ≤ buf.length) :
    ReadStateMachine.magic_number_read ⟨buf, idx, st, ret, ob⟩ =
      ⟨(buf.set 0 MN1).set 1 MN2, 2, State.reading, ret, ob⟩ := by
  have h0 : 0 < buf.length := by omega
  have h1 : 1 < buf.length := by omega
  simp [ReadStateMachine.magic_number_read, ReadStateMachine.writeByte, h0, h1]

theorem magic_char_short (buf : List ℕ) (idx ret : ℕ) (st : State) (ob : Bool)
    (h2 : ¬ 2 ≤ buf.length) :
    ∃ buf2, ReadStateMachine.magic_number_read ⟨buf, idx, st, ret, ob⟩ =
      ⟨buf2, 2, State.reading, ret, true⟩ ∧ buf2.length = buf.length := by
  by_cases h0 : 0 < buf.length
  · refine ⟨buf.set 0 MN1, ?_, by simp⟩
    have h1 : ¬ 1 < buf.length := by omega
    simp [ReadStateMachine.magic_number_read, ReadStateMachine.writeByte, h0, h1]
  · refine ⟨buf, ?_, rfl⟩
    have h1 : ¬ 1 < buf.length := by omega
    simp [ReadStateMachine.magic_number_read, ReadStateMachine.writeByte, h0, h1]


theorem hdrInv_update (m : ReadStateMachine) (r : ReadResult) (h : hdrInv m) :
    hdrInv (m.update r) := by
  obtain ⟨buf, idx, st, ret, ob⟩ := m
  obtain ⟨h1, h2⟩ := h
  cases st with
  | reading =>
    cases r with
    | ok b =>
      obtain ⟨hidx, hhdr⟩ := h1 rfl
      simp only at hidx hhdr
      have hu : (⟨buf, idx, State.reading, ret, ob⟩ : ReadStateMachine).update (ReadResult.ok b) =
          ReadStateMachine.byte_read ⟨buf, idx, State.reading, ret, ob⟩ b := rfl
      rw [hu, byte_read_char]
      split_ifs with hw hfin
      · refine ⟨fun hc => State.noConfusion hc, fun _ => ⟨?_, ?_⟩⟩
        · show (buf.set idx b).getD 0 0 = MN1
          rw [getD_set_ne _ _ _ _ _ (by omega)]
          exact (hhdr (by omega)).1
        · show (buf.set idx b).getD 1 0 = MN2
          rw [getD_set_ne _ _ _ _ _ (by omega)]
          exact (hhdr (by omega)).2
      · refine ⟨fun _ => ⟨?_, fun hl => ?_⟩, fun hc => State.noConfusion hc⟩
        · show 2 ≤ idx + 1
          omega
        · have hl2 : 2 ≤ buf.length := by simpa using hl
          refine ⟨?_, ?_⟩
          · show (buf.set idx b).getD 0 0 = MN1
            rw [getD_set_ne _ _ _ _ _ (by omega)]
            exact (hhdr hl2).1
          · show (buf.set idx b).getD 1 0 = MN2
            rw [getD_set_ne _ _ _ _ _ (by omega)]
            exact (hhdr hl2).2
      · refine ⟨fun _ => ⟨?_, fun hl => ?_⟩, fun hc => State.noConfusion hc⟩
        · show 2 ≤ idx + 1
          omega
        · exact hhdr (by simpa using hl)
    | wouldBlock =>
      simp_all [hdrInv, ReadStateMachine.update, ReadStateMachine.retry] <;>
        split_ifs <;> simp_all
    | fault =>
      simp_all [hdrInv, ReadStateMachine.update, ReadStateMachine.retry] <;>
        split_ifs <;> simp_all
  | waitingForFirstMagicNumber =>
    cases r <;>
      simp_all [hdrInv, ReadStateMachine.update, ReadStateMachine.retry] <;>
      split_ifs <;> simp_all
  | waitingForSecondMagicNumber =>
    cases r with
    | ok b =>
      by_cases hb : b = MN2
      · have hu : (⟨buf, idx, State.waitingForSecondMagicNumber, ret, ob⟩ :
            ReadStateMachine).update (ReadResult.ok b) =
            ReadStateMachine.magic_number_read
              ⟨buf, idx, State.waitingForSecondMagicNumber, ret, ob⟩ := by
          simp [ReadStateMachine.update, hb]
        rw [hu]
        by_cases h2l : 2 ≤ buf.length
        · rw [magic_char _ _ _ _ _ h2l]
          refine ⟨fun _ => ⟨?_, fun _ => ⟨?_, ?_⟩⟩, fun hc => State.noConfusion hc⟩
          · show 2 ≤ 2
            omega
          · show ((buf.set 0 MN1).set 1 MN2).getD 0 0 = MN1
            rw [getD_set_ne _ _ _ _ _ (by omega)]
            exact getD_set_self _ _ _ _ (by omega)
          · show ((buf.set 0 MN1).set 1 MN2).getD 1 0 = MN2
            refine getD_set_self _ _ _ _ ?_
            simp only [List.length_set]
            omega
        · obtain ⟨buf2, hmagic, hlen2⟩ := magic_char_short buf idx ret
            State.waitingForSecondMagicNumber ob h2l
          rw [hmagic]
          refine ⟨fun _ => ⟨?_, fun hl => ?_⟩, fun hc => State.noConfusion hc⟩
          · show 2 ≤ 2
            omega
          · exfalso
            have hl2 : 2 ≤ buf2.length := by simpa using hl
            omega
      · simp_all [hdrInv, ReadStateMachine.update]
    | wouldBlock =>
      simp_all [hdrInv, ReadStateMachine.update, ReadStateMachine.retry] <;>
        split_ifs <;> simp_all
    | fault =>
      simp_all [hdrInv, ReadStateMachine.update, ReadStateMachine.retry] <;>
        split_ifs <;> simp_all
  | finished =>
    cases r <;> simp_all [hdrInv, ReadStateMachine.update]
  | failed =>
    cases r <;> simp_all [hdrInv, ReadStateMachine.update]

theorem hdrInv_run (inputs : List ReadResult) :
    ∀ m : ReadStateMachine, hdrInv m → hdrInv (run m inputs) := by
  induction inputs with
  | nil => intro m h; simpa [run_nil] using h
  | cons r rs ih => intro m h; rw [run_cons]; exact ih _ (hdrInv_update m r h)

theorem retry_char (buf : List ℕ) (idx ret : ℕ) (st : State) (ob : Bool) :
    ReadStateMachine.retry ⟨buf, idx, st, ret, ob⟩ =
      if ret = 0 then ⟨buf, idx, State.failed, ret, ob⟩ else ⟨buf, idx, st, ret - 1, ob⟩ := by
  by_cases h : ret = 0 <;> simp [ReadStateMachine.retry, h]


theorem boundsInv_update (n : ℕ) (h3 : 3 ≤ n) (m : ReadStateMachine) (r : ReadResult)
    (h : boundsInv n m) : boundsInv n (m.update r) := by
  obtain ⟨buf, idx, st, ret, ob⟩ := m
  obtain ⟨hlen, hoob, hidx⟩ := h
  simp only at hlen hoob hidx
  cases st with
  | reading =>
    cases r with
    | ok b =>
      have hix : idx < n := hidx rfl
      have hu : (⟨buf, idx, State.reading, ret, ob⟩ : ReadStateMachine).update (ReadResult.ok b) =
          ReadStateMachine.byte_read ⟨buf, idx, State.reading, ret, ob⟩ b := rfl
      rw [hu, byte_read_char]
      have hw : idx < buf.length := by omega
      rw [if_pos hw]
      by_cases hfin : idx + 1 = buf.length
      · rw [if_pos hfin]
        exact ⟨by simpa using hlen, hoob, fun hc => State.noConfusion hc⟩
      · rw [if_neg hfin]
        refine ⟨by simpa using hlen, hoob, fun _ => ?_⟩
        show idx + 1 < n
        omega
    | wouldBlock =>
      rw [show (⟨buf, idx, State.reading, ret, ob⟩ : ReadStateMachine).update ReadResult.wouldBlock =
          ReadStateMachine.retry ⟨buf, idx, State.reading, ret, ob⟩ from rfl, retry_char]
      split_ifs
      · exact ⟨hlen, hoob, fun hc => State.noConfusion hc⟩
      · exact ⟨hlen, hoob, fun hs => hidx hs⟩
    | fault =>
      rw [show (⟨buf, idx, State.reading, ret, ob⟩ : ReadStateMachine).update ReadResult.fault =
          ReadStateMachine.retry ⟨buf, idx, State.reading, ret, ob⟩ from rfl, retry_char]
      split_ifs
      · exact ⟨hlen, hoob, fun hc => State.noConfusion hc⟩
      · exact ⟨hlen, hoob, fun hs => hidx hs⟩
  | waitingForFirstMagicNumber =>
    cases r with
    | ok b =>
      by_cases hb : b = MN1
      · have hu : (⟨buf, idx, State.waitingForFirstMagicNumber, ret, ob⟩ :
            ReadStateMachine).update (ReadResult.ok b) =
            ⟨buf, idx, State.waitingForSecondMagicNumber, ret, ob⟩ := by
          simp [ReadStateMachine.update, hb]
        rw [hu]
        exact ⟨hlen, hoob, fun hc => State.noConfusion hc⟩
      · have hu : (⟨buf, idx, State.waitingForFirstMagicNumber, ret, ob⟩ :
            ReadStateMachine).update (ReadResult.ok b) =
            ReadStateMachine.retry ⟨buf, idx, State.waitingForFirstMagicNumber, ret, ob⟩ := by
          simp [ReadStateMachine.update, hb]
        rw [hu, retry_char]
        split_ifs
        · exact ⟨hlen, hoob, fun hc => State.noConfusion hc⟩
        · exact ⟨hlen, hoob, fun hc => State.noConfusion hc⟩
    | wouldBlock =>
      rw [show (⟨buf, idx, State.waitingForFirstMagicNumber, ret, ob⟩ :
          ReadStateMachine).update ReadResult.wouldBlock =
          ReadStateMachine.retry ⟨buf, idx, State.waitingForFirstMagicNumber, ret, ob⟩ from rfl,
        retry_char]
      split_ifs
      · exact ⟨hlen, hoob, fun hc => State.noConfusion hc⟩
      · exact ⟨hlen, hoob, fun hc => State.noConfusion hc⟩
    | fault =>
      rw [show (⟨buf, idx, State.waitingForFirstMagicNumber, ret, ob⟩ :
          ReadStateMachine).update ReadResult.fault =
          ReadStateMachine.retry ⟨buf, idx, State.waitingForFirstMagicNumber, ret, ob⟩ from rfl,
        retry_char]
      split_ifs
      · exact ⟨hlen, hoob, fun hc => State.noConfusion hc⟩
      · exact ⟨hlen, hoob, fun hc => State.noConfusion hc⟩
  | waitingForSecondMagicNumber =>
    cases r with
    | ok b =>
      by_cases hb : b = MN2
      · have hu : (⟨buf, idx, State.waitingForSecondMagicNumber, ret, ob⟩ :
            ReadStateMachine).update (ReadResult.ok b) =
            ReadStateMachine.magic_number_read
              ⟨buf, idx, State.waitingForSecondMagicNumber, ret, ob⟩ := by
          simp [ReadStateMachine.update, hb]
        rw [hu, magic_char _ _ _ _ _ (by omega : 2 ≤ buf.length)]
        refine ⟨?_, hoob, fun _ => ?_⟩
        · show ((buf.set 0 MN1).set 1 MN2).length = n
          simpa using hlen
        · show 2 < n
          omega
      · have hu : (⟨buf, idx, State.waitingForSecondMagicNumber, ret, ob⟩ :
            ReadStateMachine).update (ReadResult.ok b) =
            ⟨buf, idx, State.waitingForFirstMagicNumber, ret, ob⟩ := by
          simp [ReadStateMachine.update, hb]
        rw [hu]
        exact ⟨hlen, hoob, fun hc => State.noConfusion hc⟩
    | wouldBlock =>
      rw [show (⟨buf, idx, State.waitingForSecondMagicNumber, ret, ob⟩ :
          ReadStateMachine).update ReadResult.wouldBlock =
          ReadStateMachine.retry ⟨buf, idx, State.waitingForSecondMagicNumber, ret, ob⟩ from rfl,
        retry_char]
      split_ifs
      · exact ⟨hlen, hoob, fun hc => State.noConfusion hc⟩
      · exact ⟨hlen, hoob, fun hc => State.noConfusion hc⟩
    | fault =>
      rw [show (⟨buf, idx, State.waitingForSecondMagicNumber, ret, ob⟩ :
          ReadStateMachine).update ReadResult.fault =
          ReadStateMachine.retry ⟨buf, idx, State.waitingForSecondMagicNumber, ret, ob⟩ from rfl,
        retry_char]
      split_ifs
      · exact ⟨hlen, hoob, fun hc => State.noConfusion hc⟩
      · exact ⟨hlen, hoob, fun hc => State.noConfusion hc⟩
  | finished =>
    exact ⟨hlen, hoob, fun hc => State.noConfusion hc⟩
  | failed =>
    exact ⟨hlen, hoob, fun hc => State.noConfusion hc⟩

theorem boundsInv_run (n : ℕ) (h3 : 3 ≤ n) (inputs : List ReadResult) :
    ∀ m : ReadStateMachine, boundsInv n m → boundsInv n (run m inputs) := by
  induction inputs with
  | nil => intro m h; simpa [run_nil] using h
  | cons r rs ih => intro m h; rw [run_cons]; exact ih _ (boundsInv_update n h3 m r h)

/-- Claim C4: whenever a run of the reader reports `Finished`, buffer
positions 0 and 1 hold the two magic header bytes, for every input sequence,
every initial buffer, and every retry budget. -/
theorem finished_buffer_starts_with_magic (buffer : List ℕ) (n : ℕ) (inputs : List ReadResult)
    (h : statusOf (run (create_test_fsm buffer n) inputs) = ReadStatus.finished) :
    (run (create_test_fsm buffer n) inputs).buffer.getD 0 0 = MN1 ∧
    (run (create_test_fsm buffer n) inputs).buffer.getD 1 0 = MN2 := by
  have hinv : hdrInv (run (create_test_fsm buffer n) inputs) :=
    hdrInv_run inputs _ ⟨fun hc => State.noConfusion hc, fun hc => State.noConfusion hc⟩
  exact hinv.2 ((statusOf_eq_finished _).1 h)

/-- Witness for C4: a finishing run whose first two buffer bytes are the
magic numbers. -/
theorem finished_buffer_starts_with_magic_witness :
    (run (create_test_fsm [0, 0, 0, 0] 5)
        [ReadResult.ok 0x42, ReadResult.ok 0x42, ReadResult.ok 0x11,
          ReadResult.ok 0x33]).buffer.getD 0 0 = MN1 ∧
    (run (create_test_fsm [0, 0, 0, 0] 5)
        [ReadResult.ok 0x42, ReadResult.ok 0x42, ReadResult.ok 0x11,
          ReadResult.ok 0x33]).buffer.getD 1 0 = MN2 :=
  finished_buffer_starts_with_magic [0, 0, 0, 0] 5
    [ReadResult.ok 0x42, ReadResult.ok 0x42, ReadResult.ok 0x11, ReadResult.ok 0x33] (by decide)

/-- Claim C9: if the reader is created over a buffer of length at least 3,
then for every input sequence no buffer write is ever out of bounds (`oob`
stays `false`), the buffer length is preserved, and in the `Reading` state
the cursor is always strictly below the buffer length. -/
theorem reader_writes_in_bounds (buffer : List ℕ) (n : ℕ) (inputs : List ReadResult)
    (h : 3 ≤ buffer.length) :
    (run (create_test_fsm buffer n) inputs).oob = false ∧
    (run (create_test_fsm buffer n) inputs).buffer.length = buffer.length ∧
    ((run (create_test_fsm buffer n) inputs).state = State.reading →
      (run (create_test_fsm buffer n) inputs).index < buffer.length) := by
  have hinv : boundsInv buffer.length (run (create_test_fsm buffer n) inputs) :=
    boundsInv_run buffer.length h inputs _ ⟨rfl, rfl, fun hc => State.noConfusion hc⟩
  exact ⟨hinv.2.1, hinv.1, hinv.2.2⟩

/-- Witness for C9: a concrete 3-byte read with no out-of-bounds write. -/
theorem reader_writes_in_bounds_witness :
    (run (create_test_fsm [0, 0, 0] 7)
        [ReadResult.ok 0x42, ReadResult.ok 0x42, ReadResult.ok 9]).oob = false ∧
    (run (create_test_fsm [0, 0, 0] 7)
        [ReadResult.ok 0x42, ReadResult.ok 0x42, ReadResult.ok 9]).buffer.length = 3 :=
  ⟨(reader_writes_in_bounds [0, 0, 0] 7
      [ReadResult.ok 0x42, ReadResult.ok 0x42, ReadResult.ok 9] (by decide)).1,
   (reader_writes_in_bounds [0, 0, 0] 7
      [ReadResult.ok 0x42, ReadResult.ok 0x42, ReadResult.ok 9] (by decide)).2.1⟩

/-- Claim C1: for a 32-byte buffer of byte values, `OutputFrame::from_buffer`
succeeds exactly when the sum of the first 30 bytes (mod 65536) equals the
big-endian 16-bit value of the last two bytes, and on mismatch it returns
exactly `ChecksumError` — never a partial record. -/
theorem from_buffer_checksum_characterization (b : List ℕ) (_hlen : b.length = 32)
    (hb : ∀ x ∈ b, x < 256) :
    ((OutputFrame.from_buffer b).isOk = true ↔
      (b.take 30).sum % 65536 = b.getD 30 0 * 256 + b.getD 31 0) ∧
    ((b.take 30).sum % 65536 ≠ b.getD 30 0 * 256 + b.getD 31 0 →
      OutputFrame.from_buffer b = Except.error Error.checksumError) := by
  have hle : ∀ x ∈ b.take 30, x ≤ 255 := fun x hx =>
    Nat.le_of_lt_succ (hb x (List.take_subset 30 b hx))
  have h1 := List.sum_le_card_nsmul (b.take 30) 255 hle
  have h2 : (b.take 30).length ≤ 30 := by
    simpa using List.length_take_le 30 b
  have hsum : (b.take 30).sum < 65536 := by
    simp only [smul_eq_mul] at h1
    omega
  rw [Nat.mod_eq_of_lt hsum]
  constructor
  · by_cases hc : (b.take 30).sum = b.getD 30 0 * 256 + b.getD 31 0
    · have hc2 := hc
      simp only [List.getD_eq_getElem?_getD] at hc2
      simp [OutputFrame.from_buffer, rd16, OUTPUT_FRAME_SIZE, CHECKSUM_SIZE, hc, hc2,
        Except.isOk, Except.toBool]
    · have hc2 := hc
      simp only [List.getD_eq_getElem?_getD] at hc2
      simp [OutputFrame.from_buffer, rd16, OUTPUT_FRAME_SIZE, CHECKSUM_SIZE, hc, hc2,
        Except.isOk, Except.toBool]
  · intro hne
    have hne2 := hne
    simp only [List.getD_eq_getElem?_getD] at hne2
    simp [OutputFrame.from_buffer, rd16, OUTPUT_FRAME_SIZE, CHECKSUM_SIZE, hne, hne2]

/-- Witness for C1: the integration test's telemetry frame has a valid
checksum and parses successfully. -/
theorem from_buffer_checksum_characterization_witness :
    (OutputFrame.from_buffer status_frame).isOk = true :=
  ((from_buffer_checksum_characterization status_frame (by decide) (by decide)).1).mpr (by decide)

/-- Claim C7: whenever the response phase of `active` drives the reader to a
complete 8-byte acknowledgement, it succeeds exactly when the received bytes
equal the `ACTIVE_MODE_RESPONSE` literal `42 42 00 04 E1 01 01 75`, and any
other 8-byte response makes it fail with `IncorrectResponse`. -/
theorem active_ack_characterization (inputs : List ReadResult)
    (h : statusOf (run (ReadStateMachine.new (List.replicate RESPONSE_FRAME_SIZE 0)) inputs) =
      ReadStatus.finished) :
    (active inputs = some (Except.ok ()) ↔
      (run (ReadStateMachine.new (List.replicate RESPONSE_FRAME_SIZE 0)) inputs).buffer =
        ACTIVE_MODE_RESPONSE) ∧
    ((run (ReadStateMachine.new (List.replicate RESPONSE_FRAME_SIZE 0)) inputs).buffer ≠
        ACTIVE_MODE_RESPONSE →
      active inputs = some (Except.error Error.incorrectResponse)) := by
  have hstate := (statusOf_eq_finished _).1 h
  by_cases hbuf : (run (ReadStateMachine.new (List.replicate RESPONSE_FRAME_SIZE 0)) inputs).buffer
      = ACTIVE_MODE_RESPONSE
  · constructor
    · simp [active, receive_response, read_result, hstate, hbuf]
    · intro hne
      exact absurd hbuf hne
  · constructor
    · simp [active, receive_response, read_result, hstate, hbuf]
    · intro hne
      simp [active, receive_response, read_result, hstate, hbuf]

/-- Witness for C7: a clean byte stream delivering exactly the active-mode
acknowledgement makes `active` succeed. -/
theorem active_ack_characterization_witness :
    active [ReadResult.ok 0x42, ReadResult.ok 0x42, ReadResult.ok 0x00, ReadResult.ok 0x04,
      ReadResult.ok 0xE1, ReadResult.ok 0x01, ReadResult.ok 0x01, ReadResult.ok 0x75] =
      some (Except.ok ()) :=
  ((active_ack_characterization
      [ReadResult.ok 0x42, ReadResult.ok 0x42, ReadResult.ok 0x00, ReadResult.ok 0x04,
        ReadResult.ok 0xE1, ReadResult.ok 0x01, ReadResult.ok 0x01, ReadResult.ok 0x75]
      (by decide)).1).mpr (by decide)

end Pms7003
